import Mathlib

/-!
Verification development for the wiki synchronization program
(docs-site/scripts/sync_wiki.py).  The Python source is shallowly embedded:
strings are Lean Strings (lists of Chars), every recursive scanner that is
not structurally recursive in Python is given explicit fuel (always called
with enough fuel for the input, so the fuel never runs out), and all I/O
outcomes (file existence, read results, write success, subprocess results)
are passed in as explicit environment values.
-/

set_option maxRecDepth 8000

namespace SyncWiki

/-! ### Character constants (named to keep literals out of scanners) -/

def lbk : Char := '['
def rbk : Char := ']'
def lpar : Char := '('
def rpar : Char := ')'
def starC : Char := '*'
def qmarkC : Char := '?'
def dotC : Char := '.'
def slashC : Char := '/'
def dashC : Char := '-'
def bangC : Char := '!'
def lbraceC : Char := '\x7b'
def rbraceC : Char := '\x7d'

/-! ### Python string primitives -/

/-- Python str.replace for a nonempty pattern: single left-to-right pass,
non-overlapping occurrences, each replaced by the replacement.  Structural in
the fuel; with fuel at least the length of the string the fuel never runs
out, since every step consumes at least one character. -/
def replaceFuel (pat rep : List Char) : Nat → List Char → List Char
  | _, [] => []
  | 0, l => l
  | fuel + 1, c :: cs =>
    if !pat.isEmpty && pat.isPrefixOf (c :: cs) then
      rep ++ replaceFuel pat rep fuel (List.drop pat.length (c :: cs))
    else
      c :: replaceFuel pat rep fuel cs

/-- Python str.replace.  An empty pattern interleaves the replacement around
every character, as CPython does. -/
def pyReplace (s pat rep : String) : String :=
  if pat.data.isEmpty then
    String.mk (rep.data ++ s.data.foldr (fun c acc => c :: (rep.data ++ acc)) [])
  else
    String.mk (replaceFuel pat.data rep.data s.data.length s.data)

/-- Substring-occurrence test (used to state properties of pyReplace). -/
def containsSub (pat : List Char) : List Char → Bool
  | [] => pat.isEmpty
  | c :: cs => pat.isPrefixOf (c :: cs) || containsSub pat cs

/-- Python str.lstrip with the two-character set of dot and slash: removes
every leading character belonging to the set (not the two-character prefix). -/
def lstripDotSlash (l : List Char) : List Char :=
  l.dropWhile (fun c => c == dotC || c == slashC)

def mdChars : List Char := [dotC, 'm', 'd']

/-- Strip a trailing ".md": Python endswith check followed by slicing off
three characters. -/
def stripMd (l : List Char) : List Char :=
  if mdChars.isSuffixOf l then l.take (l.length - 3) else l

/-! ### fnmatch-style glob matching (per pathlib component)

Models CPython fnmatch.fnmatchcase as used by PurePath.match: a full match
of the component against the pattern, where a star matches any sequence, a
question mark any single character, and a bracket expression a character
set (leading bang negates; a bracket expression without a closing bracket
is a literal open bracket, as in fnmatch.translate). -/

inductive GlobItem where
  | lit (c : Char)
  | rng (a b : Char)

/-- Scan the body of a bracket expression up to its closing bracket,
collecting literal members and ranges.  Returns none when the closing
bracket is missing. -/
def bracketScan : Nat → List Char → Option (List GlobItem × List Char)
  | _, [] => none
  | 0, _ => none
  | fuel + 1, c :: cs =>
    if c == rbk then some ([], cs)
    else
      match cs with
      | d :: e :: cs2 =>
        if d == dashC && !(e == rbk) then
          match bracketScan fuel cs2 with
          | some (items, rest) => some (GlobItem.rng c e :: items, rest)
          | none => none
        else
          match bracketScan fuel cs with
          | some (items, rest) => some (GlobItem.lit c :: items, rest)
          | none => none
      | _ =>
        match bracketScan fuel cs with
        | some (items, rest) => some (GlobItem.lit c :: items, rest)
        | none => none

/-- Parse a bracket expression given the characters after the open bracket:
optional leading bang for negation, then an optional literal closing bracket
as first member, then members up to the closing bracket. -/
def parseBracket (l : List Char) : Option (Bool × List GlobItem × List Char) :=
  let p : Bool × List Char :=
    match l with
    | c :: cs => if c == bangC then (true, cs) else (false, l)
    | [] => (false, l)
  match p.2 with
  | c :: cs =>
    if c == rbk then
      match bracketScan cs.length cs with
      | some (items, rest) => some (p.1, GlobItem.lit rbk :: items, rest)
      | none => none
    else
      match bracketScan p.2.length p.2 with
      | some (items, rest) => some (p.1, items, rest)
      | none => none
  | [] => none

def itemsMatch (items : List GlobItem) (c : Char) : Bool :=
  items.any (fun it =>
    match it with
    | GlobItem.lit d => c == d
    | GlobItem.rng a b => decide (a ≤ c) && decide (c ≤ b))

/-- Full-match glob interpreter.  Each recursive call strictly decreases the
sum of the pattern and string lengths, so fuel of that sum plus one never
runs out. -/
def globFuel : Nat → List Char → List Char → Bool
  | 0, _, _ => false
  | _ + 1, [], [] => true
  | _ + 1, [], _ :: _ => false
  | fuel + 1, p :: ps, s =>
    if p == starC then
      globFuel fuel ps s ||
        (match s with
         | [] => false
         | _ :: s2 => globFuel fuel (starC :: ps) s2)
    else if p == qmarkC then
      match s with
      | [] => false
      | _ :: s2 => globFuel fuel ps s2
    else if p == lbk then
      match parseBracket ps with
      | some (neg, items, rest) =>
        match s with
        | [] => false
        | c :: s2 =>
          (if neg then !itemsMatch items c else itemsMatch items c) &&
            globFuel fuel rest s2
      | none =>
        match s with
        | [] => false
        | c :: s2 => c == lbk && globFuel fuel ps s2
    else
      match s with
      | [] => false
      | c :: s2 => p == c && globFuel fuel ps s2

/-- fnmatch.fnmatchcase of a component against a glob pattern. -/
def globMatch (pattern component : String) : Bool :=
  globFuel (pattern.data.length + component.data.length + 1)
    pattern.data component.data

/-! ### pathlib path-component machinery -/

/-- Split a character list at every separator character. -/
def splitOnChar (sep : Char) : List Char → List (List Char)
  | [] => [[]]
  | c :: cs =>
    match splitOnChar sep cs with
    | [] => [[c]]
    | g :: gs => if c == sep then [] :: g :: gs else (c :: g) :: gs

/-- pathlib parse: the slash-separated components of a relative path,
dropping empty components and single-dot components (as
PurePath._flavour.parse_parts does for drive-less relative paths; absolute
paths and drives do not occur in this program's configurations). -/
def parseParts (s : String) : List String :=
  ((splitOnChar slashC s.data).filter
    (fun p => !p.isEmpty && !(p == [dotC]))).map String.mk

/-- PurePath.match with a relative, drive-less pattern: the pattern's
components are matched right-anchored against the trailing components of
the path, each component by fnmatchcase.  An empty pattern raises
ValueError in Python; the program never passes one, and it is mapped to
false here. -/
def pathMatch (pathStr pattern : String) : Bool :=
  let pp := parseParts pattern
  let ps := parseParts pathStr
  if pp.isEmpty then false
  else if ps.length < pp.length then false
  else (ps.reverse.zip pp.reverse).all (fun pr => globMatch pr.2 pr.1)

/-! ### Configuration

One record holding every configuration value the core reads, with the
defaults the Python code supplies at each access site already resolved
where the access is a plain get-with-default of a scalar.  Fields read
with a default inside an algorithm (the flatten separator, the header
template) stay optional to mirror the access sites. -/

structure Config where
  excludePatterns : List String := []
  customMappings : List (String × String) := []
  pathTransformType : Option String := none
  pathTransformSeparator : Option String := none
  convertRelativeLinks : Bool := true
  addSourceHeader : Bool := true
  customHeadersEnabled : Bool := true
  customHeadersTemplate : Option String := none
  homePageSource : String := "intro.md"
  createSidebar : Bool := true
  sidebarTitle : String := "Navigation"
  docsDirectory : String := "docs"
  wikiDirectory : String := "wiki-temp"
  cleanBeforeSync : Bool := false
  dryRun : Bool := false

/-- Path join as performed by pathlib's slash operator on the directory
values this program uses. -/
def joinPath (dir rel : String) : String := dir ++ "/" ++ rel

/-! ### WikiSync.should_exclude (lines 120 to 127)

The Python loops over the patterns and returns true at the first
Path.match success; the file_path argument is the full source path, not
the path relative to the docs directory. -/

def should_exclude (cfg : Config) (file_path : String) : Bool :=
  cfg.excludePatterns.any (fun pattern => pathMatch file_path pattern)

/-! ### WikiSync.transform_path (lines 129 to 146) -/

def transform_path (cfg : Config) (rel_path : String) : String :=
  match cfg.customMappings.find? (fun m => m.1 == rel_path) with
  | some m => pyReplace m.2 ".md" ""
  | none =>
    if cfg.pathTransformType == some "flatten" then
      let separator := cfg.pathTransformSeparator.getD "-"
      pyReplace (pyReplace rel_path "/" separator) ".md" ""
    else
      pyReplace rel_path ".md" ""

/-! ### WikiSync.convert_links (lines 148 to 166)

The regular expression is a bracket, a nonempty run of non-closing-bracket
characters, a closing bracket, a parenthesis, a nonempty run of
non-closing-parenthesis characters ending in ".md", and a closing
parenthesis.  re.sub scans left to right; at each position the match, when
it exists, is forced: the label runs to the first closing bracket, the
target runs to the first closing parenthesis and must end in ".md" with at
least one character before it. -/

/-- Try to match the link pattern at the head of the character list.
Returns the label, the target, and the remainder after the match. -/
def tryMatch (l : List Char) : Option (List Char × List Char × List Char) :=
  match l with
  | [] => none
  | c :: rest =>
    if c == lbk then
      let lab := rest.takeWhile (fun x => x != rbk)
      match rest.dropWhile (fun x => x != rbk) with
      | [] => none
      | _ :: r2 =>
        if lab.isEmpty then none
        else
          match r2 with
          | [] => none
          | d :: r3 =>
            if d == lpar then
              let pth := r3.takeWhile (fun x => x != rpar)
              match r3.dropWhile (fun x => x != rpar) with
              | [] => none
              | _ :: r5 =>
                if decide (4 ≤ pth.length) && mdChars.isSuffixOf pth then
                  some (lab, pth, r5)
                else none
            else none
    else none

/-- The replacement of convert_links' replace_link for a matched target:
lstrip of the dot-slash character set, strip of a trailing ".md", then
transform_path. -/
def mappedTarget (cfg : Config) (pth : List Char) : String :=
  transform_path cfg (String.mk (stripMd (lstripDotSlash pth)))

/-- The re.sub scan: at each position, replace a match and continue after
it, or copy one character and move on.  Every step consumes at least one
character, so fuel of the input length never runs out. -/
def goCL (cfg : Config) : Nat → List Char → List Char
  | 0, l => l
  | _ + 1, [] => []
  | fuel + 1, c :: cs =>
    match tryMatch (c :: cs) with
    | some (lab, pth, rest) =>
      lbk :: (lab ++ rbk :: lpar :: ((mappedTarget cfg pth).data ++
        rpar :: goCL cfg fuel rest))
    | none => c :: goCL cfg fuel cs

def convert_links (cfg : Config) (content : String) : String :=
  if cfg.convertRelativeLinks then
    String.mk (goCL cfg content.data.length content.data)
  else content

/-! ### WikiSync.add_header (lines 168 to 182) -/

def sourceField : List Char := "source".data
def dateField : List Char := "date".data

/-- Python str.format restricted to the fields the program supplies: a
doubled brace is an escape, a braced field named source or date is
substituted.  Any other field raises KeyError in Python; such templates do
not occur in this program and the field is kept verbatim here. -/
def formatFuel (src date : List Char) : Nat → List Char → List Char
  | _, [] => []
  | 0, l => l
  | fuel + 1, c :: cs =>
    if c == lbraceC then
      match cs with
      | [] => [c]
      | d :: cs2 =>
        if d == lbraceC then lbraceC :: formatFuel src date fuel cs2
        else
          let name := cs.takeWhile (fun x => x != rbraceC)
          match cs.dropWhile (fun x => x != rbraceC) with
          | [] => c :: formatFuel src date fuel cs
          | _ :: rest =>
            (if name == sourceField then src
             else if name == dateField then date
             else lbraceC :: (name ++ [rbraceC])) ++ formatFuel src date fuel rest
    else if c == rbraceC then
      match cs with
      | [] => [c]
      | d :: cs2 =>
        if d == rbraceC then rbraceC :: formatFuel src date fuel cs2
        else c :: formatFuel src date fuel cs
    else c :: formatFuel src date fuel cs

def pyFormat (template src date : String) : String :=
  String.mk (formatFuel src.data date.data template.data.length template.data)

def add_header (cfg : Config) (now content source_file : String) : String :=
  if !cfg.addSourceHeader then content
  else if cfg.customHeadersEnabled then
    let template := cfg.customHeadersTemplate.getD "<!-- Generated from: {source} -->"
    pyFormat template source_file now ++ "\n\n" ++ content
  else content

/-! ### WikiSync.sync_file (lines 184 to 216)

A discovered file together with the outcome of its read (none models an
exception from read_text) and of its write (false models an exception from
mkdir or write_text). -/

structure FileCase where
  rel : String
  content : Option String := some ""
  writeOk : Bool := true

/-- sync_file: returns the reported success and the write performed, if
any, as a destination path and content pair.  The exclusion test receives
the full source path, as in the Python. -/
def sync_file (cfg : Config) (now : String) (f : FileCase) :
    Bool × Option (String × String) :=
  if should_exclude cfg (joinPath cfg.docsDirectory f.rel) then (true, none)
  else
    let wiki_name := transform_path cfg f.rel
    if cfg.dryRun then (true, none)
    else
      match f.content with
      | none => (false, none)
      | some content =>
        let c1 := convert_links cfg content
        let c2 := add_header cfg now c1 f.rel
        if f.writeOk then
          (true, some (joinPath cfg.wikiDirectory (wiki_name ++ ".md"), c2))
        else (false, none)

/-! ### WikiSync.create_home_page (lines 218 to 245) -/

structure HomeEnv where
  homeExists : Bool := true
  homeRead : Option String := some ""
  readmeExists : Bool := false
  readmeRead : Option String := none
  writeOk : Bool := true

/-- create_home_page: the configured home source inside the docs directory
is tried first, then the README one level above; the exclusion filter is
never consulted.  Returns the reported success and the write performed. -/
def create_home_page (cfg : Config) (h : HomeEnv) :
    Bool × Option (String × String) :=
  let sel : Option (Option String) :=
    if h.homeExists then some h.homeRead
    else if h.readmeExists then some h.readmeRead
    else none
  match sel with
  | none => (false, none)
  | some rd =>
    if cfg.dryRun then (true, none)
    else
      match rd with
      | none => (false, none)
      | some content =>
        if h.writeOk then
          (true, some (joinPath cfg.wikiDirectory "Home.md", convert_links cfg content))
        else (false, none)

/-! ### WikiSync.create_sidebar (lines 247 to 296) -/

/-- Lexicographic character-list order (the order in which sorted arranges
the discovered paths; the full-path and relative-path orders agree since
the docs-directory text is a common prefix). -/
def charListLe : List Char → List Char → Bool
  | [], _ => true
  | _ :: _, [] => false
  | a :: as_, b :: bs => if a == b then charListLe as_ bs else decide (a < b)

def strLe (a b : String) : Bool := charListLe a.data b.data

def insertSorted (x : String) : List String → List String
  | [] => [x]
  | y :: ys => if strLe x y then x :: y :: ys else y :: insertSorted x ys

def sortStr (l : List String) : List String := l.foldr insertSorted []

/-- The last slash-separated component of a relative path. -/
def lastComponent (rel : String) : List Char :=
  match (splitOnChar slashC rel.data).reverse with
  | last :: _ => last
  | [] => []

/-- pathlib stem of a file name: the name without its suffix, where a
suffix needs a dot that is neither the first nor the last character. -/
def pyStem (name : List Char) : List Char :=
  let r := name.reverse
  let afterDot := r.takeWhile (fun c => c != dotC)
  match r.dropWhile (fun c => c != dotC) with
  | [] => name
  | _ :: beforeRev =>
    if beforeRev.isEmpty then name
    else if afterDot.isEmpty then name
    else beforeRev.reverse

/-- Python str.title over the cased-character structure: a letter after a
non-letter is uppercased, a letter after a letter is lowercased (ASCII
casing; the program's names are ASCII). -/
def pyTitleAux : Bool → List Char → List Char
  | _, [] => []
  | prevCased, c :: cs =>
    if c.isAlpha then
      (if prevCased then c.toLower else c.toUpper) :: pyTitleAux true cs
    else c :: pyTitleAux false cs

def pyTitle (s : String) : String := String.mk (pyTitleAux false s.data)

/-- The display label of a sidebar entry: the file's stem with dashes
replaced by spaces, title-cased. -/
def displayName (rel : String) : String :=
  pyTitle (pyReplace (String.mk (pyStem (lastComponent rel))) "-" " ")

/-- The group key of a sidebar entry: the name of the immediate containing
directory, or the word root for a file directly under the docs directory
(Path.parent.name is empty there). -/
def dirName (rel : String) : String :=
  match (splitOnChar slashC rel.data).reverse with
  | _ :: parent :: _ => String.mk parent
  | _ => "root"

/-- Append an entry under its group key, creating the group at the end on
first sight (Python dict insertion order). -/
def insertEntry (groups : List (String × List (String × String)))
    (d : String) (e : String × String) : List (String × List (String × String)) :=
  match groups with
  | [] => [(d, [e])]
  | (g, es) :: gs =>
    if g == d then (g, es ++ [e]) :: gs else (g, es) :: insertEntry gs d e

/-- The grouped sidebar entries for a list of relative paths, in input
order: excluded files are skipped, every survivor contributes its display
label and its transform_path identifier under its directory group. -/
def groupStep (cfg : Config) (acc : List (String × List (String × String)))
    (rel : String) : List (String × List (String × String)) :=
  if should_exclude cfg (joinPath cfg.docsDirectory rel) then acc
  else insertEntry acc (dirName rel) (displayName rel, transform_path cfg rel)

def groupFiles (cfg : Config) (files : List String) :
    List (String × List (String × String)) :=
  files.foldl (groupStep cfg) []

def renderEntries (es : List (String × String)) : String :=
  es.foldr (fun e acc => "* [" ++ e.1 ++ "](" ++ e.2 ++ ")\n" ++ acc) ""

/-- Groups in insertion order; every group except the root group gets a
heading from its directory name. -/
def renderGroups : List (String × List (String × String)) → String
  | [] => ""
  | (d, es) :: gs =>
    (if d == "root" then "" else "\n### " ++ pyTitle (pyReplace d "-" " ") ++ "\n")
      ++ renderEntries es ++ renderGroups gs

/-- The text of the sidebar document: title heading, the fixed Home link,
the Documentation heading, then the groups over the sorted discovered
files. -/
def sidebar_content (cfg : Config) (files : List String) : String :=
  "# " ++ cfg.sidebarTitle ++ "\n" ++
    ("* [Home](Home)\n" ++
      ("\n## Documentation\n" ++ renderGroups (groupFiles cfg (sortStr files))))

/-- create_sidebar: reported success and the write performed, if any;
writeOk models the write_text call (the rglob iteration itself is taken as
given by the discovered file list). -/
def create_sidebar (cfg : Config) (files : List String) (writeOk : Bool) :
    Bool × Option (String × String) :=
  if !cfg.createSidebar then (true, none)
  else if cfg.dryRun then (true, none)
  else
    if writeOk then
      (true, some (joinPath cfg.wikiDirectory "_Sidebar.md", sidebar_content cfg files))
    else (false, none)

/-! ### WikiSync.sync_docs (lines 298 to 329) -/

structure Effects where
  writes : List (String × String) := []
  deletes : List String := []
  procs : List String := []
  deriving DecidableEq

def Effects.empty : Effects := ⟨[], [], []⟩

def Effects.app (a b : Effects) : Effects :=
  ⟨a.writes ++ b.writes, a.deletes ++ b.deletes, a.procs ++ b.procs⟩

structure SyncEnv where
  docsDirExists : Bool := true
  wikiEntries : List String := []
  home : HomeEnv := {}
  files : List FileCase := []
  sidebarWriteOk : Bool := true
  now : String := ""

/-- One iteration of the sync loop: accumulate the success flag with the
file's result (the Python sets success to false on a failed sync_file and
keeps iterating) and collect the file's write. -/
def syncStep (cfg : Config) (now : String) (acc : Bool × List (String × String))
    (f : FileCase) : Bool × List (String × String) :=
  let r := sync_file cfg now f
  (acc.1 && r.1, acc.2 ++ r.2.toList)

/-- sync_docs: fatal when the docs directory is missing; otherwise clean
the wiki directory except the git metadata if configured, create the home
page (result ignored), sync every discovered file accumulating the success
flag, create the sidebar (result ignored), and return the loop's flag. -/
def sync_docs (cfg : Config) (env : SyncEnv) : Bool × Effects :=
  if !env.docsDirExists then (false, Effects.empty)
  else
    let deletes :=
      if cfg.cleanBeforeSync && !cfg.dryRun then
        env.wikiEntries.filter (fun item => item != ".git")
      else []
    let home := create_home_page cfg env.home
    let loop := env.files.foldl (syncStep cfg env.now) (true, [])
    let side := create_sidebar cfg (env.files.map FileCase.rel) env.sidebarWriteOk
    (loop.1, ⟨home.2.toList ++ loop.2 ++ side.2.toList, deletes, []⟩)

/-! ### WikiSync.push_changes (lines 331 to 392) and
     WikiSync.setup_wiki_repo (lines 74 to 118)

Subprocess outcomes are environment values; the subprocess invocations
made are returned as a trace. -/

structure GitEnv where
  configOk : Bool := true
  statusClean : Bool := false
  addOk : Bool := true
  commitOk : Bool := true
  pushOk : Bool := true

def push_changes (cfg : Config) (g : GitEnv) : Bool × List String :=
  if cfg.dryRun then (true, [])
  else
    let c1 := ["git config user.name", "git config user.email"]
    if !g.configOk then (false, c1)
    else
      let c2 := c1 ++ ["git status --porcelain"]
      if g.statusClean then (true, c2)
      else
        let c3 := c2 ++ ["git add -A"]
        if !g.addOk then (false, c3)
        else
          let c4 := c3 ++ ["git commit"]
          if !g.commitOk then (false, c4)
          else (g.pushOk, c4 ++ ["git push origin"])

structure RepoEnv where
  wikiDirExists : Bool := true
  wikiDirIsGit : Bool := true
  pullOk : Bool := true
  cloneOk : Bool := true

def setup_wiki_repo (cfg : Config) (r : RepoEnv) : Bool × Effects :=
  if cfg.dryRun then (true, Effects.empty)
  else if r.wikiDirExists && r.wikiDirIsGit then
    (r.pullOk, ⟨[], [], ["git pull origin"]⟩)
  else
    (r.cloneOk,
      ⟨[], if r.wikiDirExists then [cfg.wikiDirectory] else [], ["git clone"]⟩)

/-! ### WikiSync.run (lines 394 to 415) -/

structure RunEnv where
  repo : RepoEnv := {}
  sync : SyncEnv := {}
  git : GitEnv := {}

def run (cfg : Config) (env : RunEnv) : Bool × Effects :=
  let s1 := setup_wiki_repo cfg env.repo
  if !s1.1 then (false, s1.2)
  else
    let s2 := sync_docs cfg env.sync
    if !s2.1 then (false, s1.2.app s2.2)
    else
      let s3 := push_changes cfg env.git
      (s3.1, (s1.2.app s2.2).app ⟨[], [], s3.2⟩)

/-! ### Statement helpers -/

/-- The writes of the per-file sync loop, file by file, in order. -/
def fileWrites (cfg : Config) (now : String) (files : List FileCase) :
    List (String × String) :=
  files.foldr (fun f acc => (sync_file cfg now f).2.toList ++ acc) []

/-- A markdown link as a character list wrapped into a String. -/
def mkLink (lab tgt : List Char) : String :=
  String.mk (lbk :: (lab ++ rbk :: lpar :: (tgt ++ [rpar])))

/-- A configuration with one custom mapping whose source ends in ".md",
identity transform mode, defaults elsewhere. -/
def cfgC1 : Config := { customMappings := [("x.md", "custom-name.md")] }

/-! ## Helper lemmas -/

theorem takeWhile_append_stop (p : Char → Bool) :
    ∀ (xs : List Char), (∀ x ∈ xs, p x = true) → ∀ (y : Char), p y = false →
      ∀ (ys : List Char), (xs ++ y :: ys).takeWhile p = xs := by
  intro xs
  induction xs with
  | nil => intro _ y hy ys; simp [List.takeWhile_cons, hy]
  | cons x xs ih =>
    intro hxs y hy ys
    have hx : p x = true := hxs x (List.mem_cons_self x xs)
    simp only [List.cons_append, List.takeWhile_cons, hx, if_true]
    rw [ih (fun a ha => hxs a (List.mem_cons_of_mem x ha)) y hy ys]

theorem dropWhile_append_stop (p : Char → Bool) :
    ∀ (xs : List Char), (∀ x ∈ xs, p x = true) → ∀ (y : Char), p y = false →
      ∀ (ys : List Char), (xs ++ y :: ys).dropWhile p = y :: ys := by
  intro xs
  induction xs with
  | nil => intro _ y hy ys; simp [List.dropWhile_cons, hy]
  | cons x xs ih =>
    intro hxs y hy ys
    have hx : p x = true := hxs x (List.mem_cons_self x xs)
    simp only [List.cons_append, List.dropWhile_cons, hx, if_true]
    exact ih (fun a ha => hxs a (List.mem_cons_of_mem x ha)) y hy ys

theorem replaceFuel_no_occurrence (pat rep : List Char) :
    ∀ (fuel : Nat) (s : List Char), s.length ≤ fuel →
      containsSub pat s = false → replaceFuel pat rep fuel s = s := by
  intro fuel
  induction fuel with
  | zero =>
    intro s hs _
    match s, hs with
    | [], _ => rfl
  | succ fuel ih =>
    intro s hs hocc
    match s with
    | [] => rfl
    | c :: cs =>
      have hocc2 : (pat.isPrefixOf (c :: cs) || containsSub pat cs) = false := hocc
      have hpre : pat.isPrefixOf (c :: cs) = false := by
        cases hp : pat.isPrefixOf (c :: cs) with
        | false => rfl
        | true => rw [hp] at hocc2; simp at hocc2
      have hrest : containsSub pat cs = false := by
        cases hr : containsSub pat cs with
        | false => rfl
        | true => rw [hr] at hocc2; simp at hocc2
      have hlen : cs.length ≤ fuel := Nat.le_of_succ_le_succ hs
      simp only [replaceFuel, hpre, Bool.and_false, Bool.false_eq_true, if_false]
      rw [ih cs hlen hrest]

theorem pyReplace_no_occurrence (s : String)
    (hocc : containsSub mdChars s.data = false) :
    pyReplace s ".md" "" = s := by
  have h1 : replaceFuel mdChars ([] : List Char) s.data.length s.data = s.data :=
    replaceFuel_no_occurrence mdChars [] s.data.length s.data (Nat.le_refl _) hocc
  calc pyReplace s ".md" ""
      = String.mk (replaceFuel mdChars [] s.data.length s.data) := rfl
    _ = String.mk s.data := by rw [h1]
    _ = s := rfl

theorem find?_first_match (rel tgt : String) (post : List (String × String)) :
    ∀ (pre : List (String × String)), (∀ m ∈ pre, (m.1 == rel) = false) →
      (pre ++ (rel, tgt) :: post).find? (fun m => m.1 == rel) = some (rel, tgt) := by
  intro pre
  induction pre with
  | nil => simp [List.find?]
  | cons m ms ih =>
    intro h
    have hm : (m.1 == rel) = false := h m (List.mem_cons_self m ms)
    simp only [List.cons_append, List.find?, hm]
    exact ih (fun a ha => h a (List.mem_cons_of_mem m ha))

/-! ## Claim C1 -/

/-- C1: mapping consistency (I2) fails when a custom override mapping whose
source field ends in ".md" applies: with the override "x.md" to
"custom-name.md" in identity mode, convert_links rewrites the link
"[a](./x.md)" to target "x" (the ".md" is stripped before transform_path is
consulted, so the override never fires for links), while sync_file and the
sidebar both name the page "custom-name".  This theorem evaluates the code
at the failing input, exhibiting the divergence the claim rules out. -/
theorem c1_override_breaks_consistency :
    convert_links cfgC1 "[a](./x.md)" = "[a](x)" ∧
    transform_path cfgC1 "x.md" = "custom-name" ∧
    groupFiles cfgC1 ["x.md"] = [("root", [("X", "custom-name")])] ∧
    ("x" : String) ≠ "custom-name" := by
  refine ⟨rfl, rfl, rfl, ?_⟩
  decide

/-! ## Claim C2 -/

/-- C2 counterexample: transform_path does not preserve a non-trailing
occurrence of ".md": on "api.md/guide.txt" (no trailing ".md" extension,
so the claim says the stripping step leaves it unchanged) the code removes
the interior ".md" and returns "api/guide.txt". -/
theorem c2_counterexample :
    transform_path {} "api.md/guide.txt" = "api/guide.txt" ∧
    ("api/guide.txt" : String) ≠ "api.md/guide.txt" := by
  refine ⟨rfl, ?_⟩
  decide

/-- C2 amended: transform_path removes every left-to-right non-overlapping
occurrence of the substring ".md" (not only a trailing extension); in
particular, when no custom mapping matches and flatten mode is off, a path
containing no ".md" substring at all is returned unchanged.  The function
is total: it is defined on every input path. -/
theorem c2_amended (cfg : Config) (rel_path : String)
    (hov : cfg.customMappings.find? (fun m => m.1 == rel_path) = none)
    (hmode : cfg.pathTransformType ≠ some "flatten")
    (hocc : containsSub mdChars rel_path.data = false) :
    transform_path cfg rel_path = rel_path := by
  have hb : (cfg.pathTransformType == some "flatten") = false := by
    simpa using hmode
  rw [transform_path, hov]
  simp only [hb, Bool.false_eq_true, if_false]
  exact pyReplace_no_occurrence rel_path hocc

/-- C2 witness: the amended theorem applied at a concrete configuration and
path. -/
theorem c2_witness :
    (({} : Config).customMappings.find? (fun m => m.1 == "a/b/c") = none) ∧
    transform_path {} "a/b/c" = "a/b/c" :=
  ⟨rfl, c2_amended {} "a/b/c" rfl (by decide) rfl⟩

/-! ## Claim C5 -/

/-- C5 counterexample: exclusion does not use filename-glob semantics on the
path relative to the source root.  The pattern "d*" matches the relative
path "drafts/x.md" under fnmatch (the star crosses the separator), so the
claim says the file is excluded; the code calls PurePath.match on the full
source path with component-wise right-anchored matching, which compares
"d*" against the last component "x.md" only, and does not exclude it. -/
theorem c5_counterexample :
    should_exclude { excludePatterns := ["d*"], docsDirectory := "docs" }
        (joinPath "docs" "drafts/x.md") = false ∧
    globMatch "d*" "drafts/x.md" = true := ⟨rfl, rfl⟩

/-- C5 amended: a file is excluded if and only if its full source path (not
its path relative to the source root) matches at least one configured
pattern under PurePath.match semantics: the pattern's slash-separated
components are matched right-anchored against the trailing components of
the path, each component under filename-glob, with wildcards confined to a
single component.  An empty pattern list excludes nothing. -/
theorem c5_amended (cfg : Config) (file_path : String) :
    (cfg.excludePatterns = [] → should_exclude cfg file_path = false) ∧
    (should_exclude cfg file_path = true ↔
      ∃ pattern ∈ cfg.excludePatterns, pathMatch file_path pattern = true) := by
  constructor
  · intro h; simp [should_exclude, h]
  · simp [should_exclude, List.any_eq_true]

/-- C5 witness: the amended theorem applied at the empty pattern list. -/
theorem c5_witness : should_exclude {} "docs/x.md" = false :=
  (c5_amended {} "docs/x.md").1 rfl

/-! ## Claim C8 -/

/-- C8 counterexample: an override rule's target is not returned with only
a trailing ".md" stripped: for target "a.md.b.md" the code removes every
".md" occurrence and returns "a.b", not "a.md.b". -/
theorem c8_counterexample :
    transform_path { customMappings := [("x.md", "a.md.b.md")] } "x.md" = "a.b" ∧
    ("a.b" : String) ≠ "a.md.b" := by
  refine ⟨rfl, ?_⟩
  decide

/-- C8 amended: if the relative path exactly equals the source field of an
override rule, PathMapper returns that rule's target with every occurrence
of ".md" removed (not only a trailing extension); the first matching rule
in configured order wins, and the override takes precedence over both
flatten and identity transform modes (the configuration's transform mode is
arbitrary here). -/
theorem c8_amended (cfg : Config) (pre post : List (String × String))
    (rel tgt : String) (h : ∀ m ∈ pre, (m.1 == rel) = false) :
    transform_path { cfg with customMappings := pre ++ (rel, tgt) :: post } rel =
      pyReplace tgt ".md" "" := by
  simp only [transform_path, find?_first_match rel tgt post pre h]

/-- C8 witness: the amended theorem applied at a concrete configuration
with a non-matching earlier rule, a later shadowed rule, and flatten mode
configured. -/
theorem c8_witness :
    (∀ m ∈ [(("a.md" : String), ("z" : String))], (m.1 == "x.md") = false) ∧
    transform_path
      { pathTransformType := some "flatten",
        customMappings := [("a.md", "z")] ++ ("x.md", "custom-name.md") :: [("x.md", "other")] }
      "x.md" = pyReplace "custom-name.md" ".md" "" := by
  refine ⟨by decide, ?_⟩
  exact c8_amended { pathTransformType := some "flatten" } [("a.md", "z")]
    [("x.md", "other")] "x.md" "custom-name.md" (by decide)

/-! ## Link-rewriting lemmas (claim C3) -/

theorem goCL_nil (cfg : Config) : ∀ fuel, goCL cfg fuel [] = [] := by
  intro fuel; cases fuel <;> rfl

theorem tryMatch_no_open (c : Char) (cs : List Char) (h : (c == lbk) = false) :
    tryMatch (c :: cs) = none := by
  simp [tryMatch, h]

theorem goCL_no_open (cfg : Config) :
    ∀ (fuel : Nat) (l : List Char), (∀ x ∈ l, (x == lbk) = false) →
      l.length ≤ fuel → goCL cfg fuel l = l := by
  intro fuel
  induction fuel with
  | zero =>
    intro l _ hl
    match l, hl with
    | [], _ => rfl
  | succ fuel ih =>
    intro l hl hlen
    match l with
    | [] => rfl
    | c :: cs =>
      have hc : (c == lbk) = false := hl c (List.mem_cons_self c cs)
      rw [goCL, tryMatch_no_open c cs hc]
      rw [ih cs (fun x hx => hl x (List.mem_cons_of_mem c hx))
        (Nat.le_of_succ_le_succ hlen)]

theorem tryMatch_link (lab tgt : List Char) (hlab : lab ≠ [])
    (hlabR : ∀ x ∈ lab, (x != rbk) = true)
    (htgtP : ∀ x ∈ tgt, (x != rpar) = true) :
    tryMatch (lbk :: (lab ++ rbk :: lpar :: (tgt ++ [rpar]))) =
      (if decide (4 ≤ tgt.length) && mdChars.isSuffixOf tgt then
        some (lab, tgt, ([] : List Char)) else none) := by
  have hy1 : ((rbk != rbk) : Bool) = false := by simp
  have hy2 : ((rpar != rpar) : Bool) = false := by simp
  have htw1 := takeWhile_append_stop (fun x => x != rbk) lab hlabR rbk hy1
    (lpar :: (tgt ++ [rpar]))
  have hdw1 := dropWhile_append_stop (fun x => x != rbk) lab hlabR rbk hy1
    (lpar :: (tgt ++ [rpar]))
  have htw2 := takeWhile_append_stop (fun x => x != rpar) tgt htgtP rpar hy2 []
  have hdw2 := dropWhile_append_stop (fun x => x != rpar) tgt htgtP rpar hy2 []
  have hlabE : lab.isEmpty = false := by
    cases lab with
    | nil => exact absurd rfl hlab
    | cons a as_ => rfl
  simp only [tryMatch, beq_self_eq_true, if_true, htw1, hdw1, htw2, hdw2, hlabE,
    Bool.false_eq_true, if_false]

/-- C3 counterexample: convert_links does not strip exactly a leading "./"
and does not leave absolute URLs untouched.  On the content
"[a](../b.md) [c](https://x/y.md)" the code produces
"[a](b) [c](https://x/y)": the lstrip removes the ".." of the parent
reference (the claim predicts target "../b"), and the absolute URL ending
in ".md" is rewritten (the claim predicts it stays byte-for-byte). -/
theorem c3_counterexample :
    convert_links {} "[a](../b.md) [c](https://x/y.md)" =
      "[a](b) [c](https://x/y)" ∧
    ("[a](b) [c](https://x/y)" : String) ≠ "[a](../b) [c](https://x/y.md)" := by
  refine ⟨rfl, ?_⟩
  decide

/-- C3 amended: each match of the link pattern — a bracketed nonempty label
without closing brackets, then a parenthesized target without closing
parentheses that ends in ".md" with at least one character before it — is
rewritten by removing every leading dot and slash character (a character
set lstrip, not a "./"-prefix strip), stripping the trailing ".md", and
mapping the result through transform_path; a link whose target does not
end in ".md" is left unchanged.  Absolute URLs ending in ".md" do match
and are rewritten; anchors and non-".md" targets do not match. -/
theorem c3_amended (cfg : Config) (lab tgt : List Char)
    (hconv : cfg.convertRelativeLinks = true)
    (hlab : lab ≠ [])
    (hlabR : ∀ x ∈ lab, (x != rbk) = true)
    (hlabL : ∀ x ∈ lab, (x == lbk) = false)
    (htgtP : ∀ x ∈ tgt, (x != rpar) = true)
    (htgtL : ∀ x ∈ tgt, (x == lbk) = false) :
    ((decide (4 ≤ tgt.length) && mdChars.isSuffixOf tgt) = true →
      convert_links cfg (mkLink lab tgt) = mkLink lab (mappedTarget cfg tgt).data) ∧
    ((decide (4 ≤ tgt.length) && mdChars.isSuffixOf tgt) = false →
      convert_links cfg (mkLink lab tgt) = mkLink lab tgt) := by
  have hdata : (mkLink lab tgt).data = lbk :: (lab ++ rbk :: lpar :: (tgt ++ [rpar])) := rfl
  have hrest : ∀ x ∈ lab ++ rbk :: lpar :: (tgt ++ [rpar]), (x == lbk) = false := by
    intro x hx
    rcases List.mem_append.1 hx with hx | hx
    · exact hlabL x hx
    · rcases List.mem_cons.1 hx with hx | hx
      · subst hx; decide
      · rcases List.mem_cons.1 hx with hx | hx
        · subst hx; decide
        · rcases List.mem_append.1 hx with hx | hx
          · exact htgtL x hx
          · have : x = rpar := by simpa using hx
            subst this; decide
  constructor
  · intro h
    simp only [convert_links, hconv, if_true, hdata, List.length_cons]
    rw [goCL, tryMatch_link lab tgt hlab hlabR htgtP, h, if_pos rfl]
    simp only [goCL_nil]
    rfl
  · intro h
    simp only [convert_links, hconv, if_true, hdata, List.length_cons]
    rw [goCL, tryMatch_link lab tgt hlab hlabR htgtP, h]
    simp only [Bool.false_eq_true, if_false]
    rw [goCL_no_open cfg _ _ hrest (Nat.le_refl _)]
    rfl

/-- C3 witness: the amended theorem applied at the link "[a](./x.md)" with
the default configuration. -/
theorem c3_witness :
    (['a'] : List Char) ≠ [] ∧
    convert_links {} (mkLink ['a'] ("./x.md".data)) =
      mkLink ['a'] ((mappedTarget {} "./x.md".data).data) :=
  ⟨by decide,
    (c3_amended {} ['a'] "./x.md".data rfl (by decide) (by decide) (by decide)
      (by decide) (by decide)).1 (by decide)⟩

/-! ## Grouping lemmas (claims C4 and C6) -/

theorem insertEntry_forall (Q : String → (String × String) → Prop) :
    ∀ (acc : List (String × List (String × String))) (d : String)
      (e : String × String),
      (∀ g ∈ acc, ∀ x ∈ g.2, Q g.1 x) → Q d e →
      ∀ g ∈ insertEntry acc d e, ∀ x ∈ g.2, Q g.1 x := by
  intro acc
  induction acc with
  | nil =>
    intro d e _ he g hg x hx
    have hg2 : g = (d, [e]) := by simpa [insertEntry] using hg
    subst hg2
    have hx2 : x = e := by simpa using hx
    subst hx2
    exact he
  | cons p ps ih =>
    intro d e hacc he g hg x hx
    obtain ⟨g0, es⟩ := p
    by_cases hbeq : (g0 == d) = true
    · simp only [insertEntry, hbeq, if_true] at hg
      rcases List.mem_cons.1 hg with hg | hg
      · subst hg
        rcases List.mem_append.1 hx with hx | hx
        · exact hacc (g0, es) (List.mem_cons_self _ _) x hx
        · have hx2 : x = e := by simpa using hx
          have hg0 : g0 = d := by simpa using hbeq
          show Q g0 x
          rw [hx2, hg0]
          exact he
      · exact hacc g (List.mem_cons_of_mem _ hg) x hx
    · have hbeq2 : (g0 == d) = false := by
        cases hb : (g0 == d) with
        | false => rfl
        | true => exact absurd hb hbeq
      simp only [insertEntry, hbeq2, Bool.false_eq_true, if_false] at hg
      rcases List.mem_cons.1 hg with hg | hg
      · subst hg
        exact hacc (g0, es) (List.mem_cons_self _ _) x hx
      · exact ih d e (fun a ha y hy => hacc a (List.mem_cons_of_mem _ ha) y hy)
          he g hg x hx

theorem groupFold_forall (cfg : Config) (Q : String → (String × String) → Prop) :
    ∀ (files : List String) (acc : List (String × List (String × String))),
      (∀ g ∈ acc, ∀ x ∈ g.2, Q g.1 x) →
      (∀ rel ∈ files, should_exclude cfg (joinPath cfg.docsDirectory rel) = false →
        Q (dirName rel) (displayName rel, transform_path cfg rel)) →
      ∀ g ∈ files.foldl (groupStep cfg) acc, ∀ x ∈ g.2, Q g.1 x := by
  intro files
  induction files with
  | nil => intro acc hacc _ g hg; exact hacc g hg
  | cons rel rs ih =>
    intro acc hacc hfiles g hg
    rw [List.foldl_cons] at hg
    have htail : ∀ a ∈ rs, should_exclude cfg (joinPath cfg.docsDirectory a) = false →
        Q (dirName a) (displayName a, transform_path cfg a) :=
      fun a ha => hfiles a (List.mem_cons_of_mem rel ha)
    cases hex : should_exclude cfg (joinPath cfg.docsDirectory rel) with
    | true =>
      have hstep : groupStep cfg acc rel = acc := by simp [groupStep, hex]
      rw [hstep] at hg
      exact ih acc hacc htail g hg
    | false =>
      have hstep : groupStep cfg acc rel =
          insertEntry acc (dirName rel) (displayName rel, transform_path cfg rel) := by
        simp [groupStep, hex]
      rw [hstep] at hg
      exact ih _ (insertEntry_forall Q acc _ _ hacc
        (hfiles rel (List.mem_cons_self rel rs) hex)) htail g hg

theorem groupFold_filter (cfg : Config) :
    ∀ (files : List String) (acc : List (String × List (String × String))),
      files.foldl (groupStep cfg) acc =
        (files.filter (fun rel =>
          !(should_exclude cfg (joinPath cfg.docsDirectory rel)))).foldl
            (groupStep cfg) acc := by
  intro files
  induction files with
  | nil => intro acc; rfl
  | cons rel rs ih =>
    intro acc
    cases hex : should_exclude cfg (joinPath cfg.docsDirectory rel) with
    | true =>
      have hstep : groupStep cfg acc rel = acc := by simp [groupStep, hex]
      simp only [List.foldl_cons, List.filter_cons, hex, Bool.not_true, hstep,
        Bool.false_eq_true, if_false]
      exact ih acc
    | false =>
      simp only [List.foldl_cons, List.filter_cons, hex, Bool.not_false, if_true]
      exact ih (groupStep cfg acc rel)

/-! ## Exclusion-pattern invariance of the home-page builder (claim C4) -/

theorem transform_path_congr (cfgA cfgB : Config)
    (h1 : cfgA.customMappings = cfgB.customMappings)
    (h2 : cfgA.pathTransformType = cfgB.pathTransformType)
    (h3 : cfgA.pathTransformSeparator = cfgB.pathTransformSeparator)
    (p : String) : transform_path cfgA p = transform_path cfgB p := by
  simp only [transform_path, h1, h2, h3]

theorem mappedTarget_congr (cfgA cfgB : Config)
    (h1 : cfgA.customMappings = cfgB.customMappings)
    (h2 : cfgA.pathTransformType = cfgB.pathTransformType)
    (h3 : cfgA.pathTransformSeparator = cfgB.pathTransformSeparator)
    (pth : List Char) : mappedTarget cfgA pth = mappedTarget cfgB pth := by
  simp only [mappedTarget, transform_path_congr cfgA cfgB h1 h2 h3]

theorem goCL_congr (cfgA cfgB : Config)
    (h1 : cfgA.customMappings = cfgB.customMappings)
    (h2 : cfgA.pathTransformType = cfgB.pathTransformType)
    (h3 : cfgA.pathTransformSeparator = cfgB.pathTransformSeparator) :
    ∀ (fuel : Nat) (l : List Char), goCL cfgA fuel l = goCL cfgB fuel l := by
  intro fuel
  induction fuel with
  | zero => intro l; rfl
  | succ fuel ih =>
    intro l
    match l with
    | [] => rfl
    | c :: cs =>
      rw [goCL, goCL]
      cases htm : tryMatch (c :: cs) with
      | none => simp only [htm, ih]
      | some v =>
        obtain ⟨lab, pth, rest⟩ := v
        simp only [htm, mappedTarget_congr cfgA cfgB h1 h2 h3, ih]

theorem convert_links_congr (cfgA cfgB : Config)
    (h1 : cfgA.customMappings = cfgB.customMappings)
    (h2 : cfgA.pathTransformType = cfgB.pathTransformType)
    (h3 : cfgA.pathTransformSeparator = cfgB.pathTransformSeparator)
    (h4 : cfgA.convertRelativeLinks = cfgB.convertRelativeLinks)
    (content : String) : convert_links cfgA content = convert_links cfgB content := by
  rw [convert_links, convert_links, h4]
  cases cfgB.convertRelativeLinks with
  | false => rfl
  | true => simp only [if_true, goCL_congr cfgA cfgB h1 h2 h3]

theorem create_home_page_exclude_invariant (cfg : Config) (pats : List String)
    (henv : HomeEnv) :
    create_home_page { cfg with excludePatterns := pats } henv =
      create_home_page cfg henv := by
  obtain ⟨hE, hR, rE, rR, w⟩ := henv
  simp only [create_home_page,
    convert_links_congr { cfg with excludePatterns := pats } cfg rfl rfl rfl rfl]

/-! ## Claim C4 -/

/-- A configuration that excludes the configured home-page source. -/
def cfgExcl : Config :=
  { excludePatterns := ["intro.md"], docsDirectory := "docs", wikiDirectory := "wiki" }

/-- C4 counterexample: a file matching an exclude pattern is still selected
by HomePageBuilder.  With "intro.md" excluded, sync_file skips it and the
sidebar has no entry for it, yet create_home_page reads it and writes its
content as the Home document: the exclusion filter is never consulted
there. -/
theorem c4_counterexample :
    create_home_page cfgExcl
        { homeExists := true, homeRead := some "hi", readmeExists := false,
          readmeRead := none, writeOk := true } =
      (true, some ("wiki/Home.md", "hi")) ∧
    should_exclude cfgExcl "docs/intro.md" = true ∧
    groupFiles cfgExcl ["intro.md"] = [] := ⟨rfl, rfl, rfl⟩

/-- C4 amended: a file matching an exclude pattern never appears in the
sync output (sync_file writes nothing for it and reports success) and
never contributes a sidebar entry (grouping over any file list equals
grouping over the list with excluded files filtered out); HomePageBuilder,
however, does not consult the exclusion patterns at all (its result is
invariant under any change of the pattern list), so an excluded file can
still be selected as the home page. -/
theorem c4_amended (cfg : Config) (now : String) (f : FileCase)
    (files : List String)
    (h : should_exclude cfg (joinPath cfg.docsDirectory f.rel) = true) :
    sync_file cfg now f = (true, none) ∧
    groupFiles cfg files = groupFiles cfg (files.filter (fun rel =>
      !(should_exclude cfg (joinPath cfg.docsDirectory rel)))) ∧
    (∀ (pats : List String) (henv : HomeEnv),
      create_home_page { cfg with excludePatterns := pats } henv =
        create_home_page cfg henv) := by
  refine ⟨by simp [sync_file, h], groupFold_filter cfg files [], ?_⟩
  intro pats henv
  exact create_home_page_exclude_invariant cfg pats henv

/-- C4 witness: the amended theorem applied at the excluded home source. -/
theorem c4_witness :
    should_exclude cfgExcl (joinPath cfgExcl.docsDirectory "intro.md") = true ∧
    sync_file cfgExcl "now" { rel := "intro.md", content := some "hi" } =
      (true, none) :=
  ⟨rfl,
    (c4_amended cfgExcl "now" { rel := "intro.md", content := some "hi" } []
      rfl).1⟩

/-! ## Claim C6 -/

/-- C6 counterexample: the unlabeled root group is not rendered first.
With files "zz.md" (directly under the root) and "api/x.md", the sorted
traversal meets "api/x.md" first, so the "api" group is created before the
root group and the root entry for "zz.md" is emitted after the "### Api"
heading, visually inside the Api group. -/
theorem c6_counterexample :
    sidebar_content {} ["zz.md", "api/x.md"] =
      "# Navigation\n* [Home](Home)\n\n## Documentation\n\n### Api\n* [X](api/x)\n* [Zz](zz)\n" ∧
    (groupFiles {} (sortStr ["zz.md", "api/x.md"])).map Prod.fst =
      ["api", "root"] := ⟨rfl, rfl⟩

/-- C6 amended: the sidebar document opens with the title heading followed
immediately by the fixed Home link and the Documentation heading; entries
are grouped by the name of the immediate containing directory (files
directly under the source root fall into the unlabeled root group, which
is rendered without a heading); groups appear in order of first appearance
in the sorted file list, so the root group is not necessarily first.
Every emitted entry comes from a non-excluded input file, carries that
file's directory as its group, and uses that file's display name and
transform_path identifier. -/
theorem c6_amended (cfg : Config) (files : List String) :
    (∃ rest, sidebar_content cfg files =
      "# " ++ cfg.sidebarTitle ++ "\n" ++
        ("* [Home](Home)\n" ++ ("\n## Documentation\n" ++ rest))) ∧
    (∀ (es : List (String × String)) (gs : List (String × List (String × String))),
      renderGroups (("root", es) :: gs) = renderEntries es ++ renderGroups gs) ∧
    (∀ g ∈ groupFiles cfg files, ∀ e ∈ g.2, ∃ rel, rel ∈ files ∧
      should_exclude cfg (joinPath cfg.docsDirectory rel) = false ∧
      dirName rel = g.1 ∧ e = (displayName rel, transform_path cfg rel)) := by
  refine ⟨⟨renderGroups (groupFiles cfg (sortStr files)), rfl⟩,
    fun es gs => rfl, ?_⟩
  exact groupFold_forall cfg
    (fun d e => ∃ rel, rel ∈ files ∧
      should_exclude cfg (joinPath cfg.docsDirectory rel) = false ∧
      dirName rel = d ∧ e = (displayName rel, transform_path cfg rel))
    files [] (fun g hg => absurd hg (List.not_mem_nil g))
    (fun rel hrel hexcl => ⟨rel, hrel, hexcl, rfl, rfl⟩)

/-- C6 witness: the grouping part of the amended theorem applied at one
concrete file under a subdirectory. -/
theorem c6_witness :
    ∃ rel, rel ∈ ["guides/setup.md"] ∧
      should_exclude {} (joinPath ({} : Config).docsDirectory rel) = false ∧
      dirName rel = "guides" ∧
      (("Setup", "guides/setup") : String × String) =
        (displayName rel, transform_path {} rel) :=
  (c6_amended {} ["guides/setup.md"]).2.2 ("guides", [("Setup", "guides/setup")])
    (by decide) ("Setup", "guides/setup") (by decide)

/-! ## Sync-loop and dry-run lemmas (claims C7, C9, C10) -/

theorem foldl_syncStep (cfg : Config) (now : String) :
    ∀ (files : List FileCase) (b : Bool) (l : List (String × String)),
      files.foldl (syncStep cfg now) (b, l) =
        (b && files.all (fun f => (sync_file cfg now f).1),
         l ++ fileWrites cfg now files) := by
  intro files
  induction files with
  | nil => intro b l; simp [fileWrites]
  | cons f fs ih =>
    intro b l
    rw [List.foldl_cons]
    show fs.foldl (syncStep cfg now)
      (b && (sync_file cfg now f).1, l ++ (sync_file cfg now f).2.toList) = _
    rw [ih]
    have hw : fileWrites cfg now (f :: fs) =
        (sync_file cfg now f).2.toList ++ fileWrites cfg now fs := rfl
    rw [hw]
    simp [Bool.and_assoc, List.append_assoc]

theorem sync_docs_noDir (cfg : Config) (env : SyncEnv)
    (h : env.docsDirExists = false) :
    sync_docs cfg env = (false, Effects.empty) := by
  rw [sync_docs, h]
  rfl

theorem sync_docs_eval (cfg : Config) (env : SyncEnv)
    (h : env.docsDirExists = true) :
    sync_docs cfg env =
      (env.files.all (fun f => (sync_file cfg env.now f).1),
       ⟨(create_home_page cfg env.home).2.toList ++ fileWrites cfg env.now env.files ++
          (create_sidebar cfg (env.files.map FileCase.rel) env.sidebarWriteOk).2.toList,
        (if cfg.cleanBeforeSync && !cfg.dryRun then
          env.wikiEntries.filter (fun item => item != ".git") else []),
        []⟩) := by
  rw [sync_docs, h]
  simp only [Bool.not_true, Bool.false_eq_true, if_false]
  rw [foldl_syncStep]
  simp

theorem sync_file_dry (cfg : Config) (now : String) (f : FileCase)
    (h : cfg.dryRun = true) : sync_file cfg now f = (true, none) := by
  cases hex : should_exclude cfg (joinPath cfg.docsDirectory f.rel) with
  | true => simp [sync_file, hex]
  | false => simp [sync_file, hex, h]

theorem fileWrites_dry (cfg : Config) (now : String) (h : cfg.dryRun = true) :
    ∀ files, fileWrites cfg now files = [] := by
  intro files
  induction files with
  | nil => rfl
  | cons f fs ih =>
    have hw : fileWrites cfg now (f :: fs) =
        (sync_file cfg now f).2.toList ++ fileWrites cfg now fs := rfl
    rw [hw, sync_file_dry cfg now f h, ih]
    rfl

theorem all_sync_dry (cfg : Config) (now : String) (h : cfg.dryRun = true) :
    ∀ files : List FileCase, files.all (fun f => (sync_file cfg now f).1) = true := by
  intro files
  apply List.all_eq_true.2
  intro f _
  rw [sync_file_dry cfg now f h]

theorem create_home_page_dry (cfg : Config) (henv : HomeEnv)
    (h : cfg.dryRun = true) :
    create_home_page cfg henv = (henv.homeExists || henv.readmeExists, none) := by
  obtain ⟨hE, hR, rE, rR, w⟩ := henv
  cases hE <;> cases rE <;> simp [create_home_page, h]

theorem create_sidebar_dry (cfg : Config) (files : List String) (w : Bool)
    (h : cfg.dryRun = true) : create_sidebar cfg files w = (true, none) := by
  cases hcs : cfg.createSidebar <;> simp [create_sidebar, hcs, h]

theorem sync_docs_dry (cfg : Config) (env : SyncEnv) (h : cfg.dryRun = true) :
    sync_docs cfg env = (env.docsDirExists, Effects.empty) := by
  cases hde : env.docsDirExists with
  | false => rw [sync_docs_noDir cfg env hde]
  | true =>
    rw [sync_docs_eval cfg env hde, create_home_page_dry cfg env.home h,
      create_sidebar_dry cfg _ _ h, fileWrites_dry cfg env.now h,
      all_sync_dry cfg env.now h]
    simp [h, Effects.empty]

theorem push_changes_dry (cfg : Config) (g : GitEnv) (h : cfg.dryRun = true) :
    push_changes cfg g = (true, []) := by
  simp [push_changes, h]

theorem setup_wiki_repo_dry (cfg : Config) (r : RepoEnv) (h : cfg.dryRun = true) :
    setup_wiki_repo cfg r = (true, Effects.empty) := by
  simp [setup_wiki_repo, h, Effects.empty]

/-! ## Claim C7 -/

/-- C7 counterexample: with dry-run enabled the core logic does not execute
in full and does not report the plan a real run would execute: for a file
whose read fails, the dry run reports per-file success (it returns before
reading or transforming anything), while a real run on the same input
reports failure. -/
theorem c7_counterexample :
    sync_file { dryRun := true } "now" { rel := "a.md", content := none } =
      (true, none) ∧
    sync_file {} "now" { rel := "a.md", content := none } = (false, none) :=
  ⟨rfl, rfl⟩

/-- C7 amended: with dry-run enabled a run performs zero filesystem writes,
zero deletions, and zero subprocess invocations, and overall success
reduces to the source-directory existence check; path mapping still runs
inside sync_file, but content reading, link rewriting, header injection,
and sidebar grouping are skipped, so each per-file outcome is reported as
success regardless of what a real run would report. -/
theorem c7_amended (cfg : Config) (env : RunEnv) (h : cfg.dryRun = true) :
    run cfg env = (env.sync.docsDirExists, Effects.empty) := by
  simp only [run, setup_wiki_repo_dry cfg env.repo h, sync_docs_dry cfg env.sync h,
    push_changes_dry cfg env.git h]
  cases env.sync.docsDirExists with
  | false => simp [Effects.app, Effects.empty]
  | true => simp [Effects.app, Effects.empty]

/-- C7 witness: the amended theorem applied at a dry-run configuration and
the default environment. -/
theorem c7_witness :
    ({ dryRun := true } : Config).dryRun = true ∧
    run { dryRun := true } {} = (true, Effects.empty) :=
  ⟨rfl, c7_amended { dryRun := true } {} rfl⟩

/-! ## Claim C9 -/

/-- C9: best-effort per-file failure semantics.  When the source directory
is missing, sync_docs fails immediately with no effects and no file
processed.  When it exists, the overall flag is the conjunction of every
file's individual sync_file outcome (one failure makes it false without
stopping the loop), and the writes are exactly the concatenation of every
file's own writes — each file's contribution is present regardless of any
other file's failure. -/
theorem c9_best_effort (cfg : Config) (env : SyncEnv) :
    sync_docs cfg { env with docsDirExists := false } = (false, Effects.empty) ∧
    (sync_docs cfg { env with docsDirExists := true }).1 =
      env.files.all (fun f => (sync_file cfg env.now f).1) ∧
    (sync_docs cfg { env with docsDirExists := true }).2.writes =
      (create_home_page cfg env.home).2.toList ++ fileWrites cfg env.now env.files ++
        (create_sidebar cfg (env.files.map FileCase.rel) env.sidebarWriteOk).2.toList := by
  refine ⟨sync_docs_noDir cfg _ rfl, ?_, ?_⟩
  · rw [sync_docs_eval cfg { env with docsDirExists := true } rfl]
  · rw [sync_docs_eval cfg { env with docsDirExists := true } rfl]

/-! ## Claim C10 -/

/-- C10: the success flag of sync_docs is completely independent of
home-page and sidebar creation: replacing the home-page environment (its
existence, read, and write outcomes) and the sidebar write outcome by any
other values leaves the returned flag unchanged; it depends only on the
source-directory existence and the per-file sync loop. -/
theorem c10_home_sidebar_independent (cfg : Config) (env : SyncEnv)
    (h2 : HomeEnv) (s2 : Bool) :
    (sync_docs cfg { env with home := h2, sidebarWriteOk := s2 }).1 =
      (sync_docs cfg env).1 := by
  by_cases hde : env.docsDirExists = true
  · rw [sync_docs_eval cfg { env with home := h2, sidebarWriteOk := s2 } hde,
      sync_docs_eval cfg env hde]
  · have hde2 : env.docsDirExists = false := by
      revert hde; cases env.docsDirExists <;> simp
    rw [sync_docs_noDir cfg { env with home := h2, sidebarWriteOk := s2 } hde2,
      sync_docs_noDir cfg env hde2]

end SyncWiki
